import Mathlib

/-!
# Verification of the cAIber threat-collection core

Shallow embedding of `backend/app/services/collection_agent.py` and
`backend/app/services/simple_pipeline.py` (keyword derivation, the three
collection agents' `process` functions, and `ThreatLandscapeBuilder`),
with theorems settling the frozen claims about them.

Modelling conventions:
* Python strings are Lean `String`s; `str.lower()` is modelled with the
  ASCII case map (`Char.toLower`), `str.strip()` drops the ASCII
  whitespace characters Python strips, and Python's `needle in hay`
  substring test is modelled by an explicit contiguous-sublist check.
* A Python value that may be absent from a dict is an `Option`;
  `d.get(k, default)` is `Option.getD`.  A `raise` is `Except.error`.
* External collaborators (the LLM client, HTTP transport, the `stix2`
  constructors' own validation, the system clock) are opaque: the LLM is
  a total function parameter, a transport result is an `Except` value
  supplied by the caller, `stix2` object construction is plain record
  construction of exactly the fields the code sets, and the timestamp is
  a `String` parameter.
-/

namespace CAIber

/-! ## Python string primitives -/

/-- The whitespace characters stripped by Python's default `str.strip()`
(space, tab, newline, carriage return, vertical tab, form feed), by
code point. -/
def isSpace (c : Char) : Bool :=
  c.toNat = 32 || c.toNat = 9 || c.toNat = 10 || c.toNat = 13 ||
    c.toNat = 11 || c.toNat = 12

/-- `leadsWith needle hay` is true when `needle` is an initial run of `hay`. -/
def leadsWith : List Char → List Char → Bool
  | [], _ => true
  | _ :: _, [] => false
  | a :: as, b :: bs => a = b && leadsWith as bs

/-- `occursIn needle hay`: `needle` occurs contiguously inside `hay`
(Python's `needle in hay` for strings). -/
def occursIn (needle : List Char) : List Char → Bool
  | [] => needle.isEmpty
  | c :: rest => leadsWith needle (c :: rest) || occursIn needle rest

/-- Python `needle in hay` on strings. -/
def pyIn (needle hay : String) : Bool :=
  occursIn needle.data hay.data

/-- Python `s.lower()` (ASCII case mapping). -/
def pyLower (s : String) : String :=
  ⟨s.data.map Char.toLower⟩

/-- Strip a leading run of whitespace, then a trailing run. -/
def stripChars (l : List Char) : List Char :=
  (((l.dropWhile isSpace).reverse.dropWhile isSpace)).reverse

/-- Python `s.strip()`. -/
def pyStrip (s : String) : String :=
  ⟨stripChars s.data⟩

/-- Python `s.split(',')`: split on every comma, keeping empty pieces;
always returns at least one piece. -/
def splitCommaChars : List Char → List (List Char)
  | [] => [[]]
  | c :: rest =>
    match splitCommaChars rest with
    | [] => [[]]
    | h :: t => if c = ',' then [] :: h :: t else (c :: h) :: t

/-- Python `s.split(',')` on `String`s. -/
def pySplitComma (s : String) : List String :=
  (splitCommaChars s.data).map fun l => ⟨l⟩

/-! ## Keyword Set derivation
(`simple_pipeline.extract_keywords_from_pirs` and
`BaseAgent._get_keywords_from_pirs`) -/

/-- The fixed fallback keyword set used whenever no PIR text is
available. -/
def fallbackKeywords : Finset String :=
  {"threat", "vulnerability", "malware"}

/-- The keyword-extraction prompt built around the PIR text
(`simple_pipeline.py` lines 25-34 / `collection_agent.py` lines 37-46). -/
def keywordPrompt (pirsText : String) : String :=
  "\n    From the following threat intelligence requirements, extract a list of no more than 10 critical, specific, and searchable keywords.\n    Focus on technologies, threat actor types, regions, and targeted assets.\n    Return the keywords as a single, comma-separated string.\n\n    Requirements:\n    \"" ++ pirsText ++ "\"\n\n    Keywords:\n    "

/-- `{kw.strip().lower() for kw in keywords_str.split(',')}`: the set of
stripped, lowercased comma-separated pieces of the LLM's reply. -/
def keywordSetOf (keywordsStr : String) : Finset String :=
  ((pySplitComma keywordsStr).map fun kw => pyLower (pyStrip kw)).toFinset

/-- `simple_pipeline.extract_keywords_from_pirs`.  The LLM client is an
opaque total collaborator `llm : String → String`. -/
def extractKeywordsFromPirs (llm : String → String) (pirsText : String) :
    Finset String :=
  if pirsText = "" then fallbackKeywords
  else keywordSetOf (llm (keywordPrompt pirsText))

/-- The `{"result": ...}` object inside the `/generate-pirs` response. -/
structure PirsResult where
  result : Option String
deriving DecidableEq

/-- The JSON body of the `/generate-pirs` response (`"pirs"` key). -/
structure PirApiResponse where
  pirs : Option PirsResult
deriving DecidableEq

/-- `BaseAgent._get_keywords_from_pirs`: fetch the PIR text over HTTP
(`fetchPirs`, whose `error` case is the caught
`requests.exceptions.RequestException`), fall back on transport failure
or empty text, otherwise extract keywords with the LLM. -/
def getKeywordsFromPirs (llm : String → String)
    (fetchPirs : Except String PirApiResponse) : Finset String :=
  match fetchPirs with
  | Except.error _ => fallbackKeywords
  | Except.ok resp =>
    let pirsText := ((resp.pirs.getD ⟨none⟩).result).getD ""
    if pirsText = "" then fallbackKeywords
    else keywordSetOf (llm (keywordPrompt pirsText))

/-! ## OTXAgent (`collection_agent.py` lines 71-105)

`process` iterates over pulses; for a pulse whose `name + ' ' +
description` matches a keyword (case-insensitive substring), every entry
of its `indicators` list is turned into a STIX Indicator whose pattern
is the f-string `[{indicator['type']}:value = '{indicator['indicator']}']`.
The two bracket lookups are plain `dict[...]` accesses, so a missing key
raises `KeyError` (modelled as `Except.error`), aborting the whole
`process` call. -/

/-- One raw entry of a pulse's `indicators` list; only the two keys the
code reads are modelled, `none` meaning the key is absent. -/
structure OtxEntry where
  type : Option String
  indicator : Option String
deriving DecidableEq

/-- One raw OTX pulse. -/
structure Pulse where
  name : Option String
  description : Option String
  indicators : Option (List OtxEntry)
deriving DecidableEq

/-- The fields of the serialized STIX Indicator that the code sets
(`stix2` also adds generated fields such as `id`/`created`, which are
opaque external behaviour and not modelled). -/
structure OtxOut where
  type : String
  name : Option String
  pattern_type : String
  pattern : String
  description : Option String
deriving DecidableEq

/-- `pulse.get('name', '') + ' ' + pulse.get('description', '')`. -/
def pulseText (p : Pulse) : String :=
  p.name.getD "" ++ " " ++ p.description.getD ""

/-- `any(keyword.lower() in pulse_text.lower() for keyword in self.dna_keywords)`. -/
def otxMatch (keywords : List String) (p : Pulse) : Bool :=
  keywords.any fun kw => pyIn (pyLower kw) (pyLower (pulseText p))

/-- Convert one indicator entry of a matched pulse.  The f-string reads
`indicator['type']` first, then `indicator['indicator']`; a missing key
is a `KeyError`. -/
def otxEntryItem (p : Pulse) (e : OtxEntry) : Except String OtxOut :=
  match e.type with
  | none => Except.error "KeyError: \x27type\x27"
  | some t =>
    match e.indicator with
    | none => Except.error "KeyError: \x27indicator\x27"
    | some v =>
      Except.ok
        { type := "indicator"
          name := p.name
          pattern_type := "stix"
          pattern := "[" ++ t ++ ":value = \x27" ++ v ++ "\x27]"
          description := p.description }

/-- Convert the entries of one matched pulse in order; the first
`KeyError` aborts. -/
def otxPulseItems (p : Pulse) : List OtxEntry → Except String (List OtxOut)
  | [] => Except.ok []
  | e :: rest =>
    match otxEntryItem p e with
    | Except.error m => Except.error m
    | Except.ok it =>
      match otxPulseItems p rest with
      | Except.error m => Except.error m
      | Except.ok its => Except.ok (it :: its)

/-- The contribution of one pulse to `OTXAgent.process`: nothing unless
the pulse text matches the keyword set. -/
def otxPulse (keywords : List String) (p : Pulse) :
    Except String (List OtxOut) :=
  if otxMatch keywords p then otxPulseItems p (p.indicators.getD [])
  else Except.ok []

/-- `OTXAgent.process(raw_pulses)`.  An uncaught `KeyError` from any
pulse aborts the whole call. -/
def otxProcess (keywords : List String) :
    List Pulse → Except String (List OtxOut)
  | [] => Except.ok []
  | p :: rest =>
    match otxPulse keywords p with
    | Except.error m => Except.error m
    | Except.ok xs =>
      match otxProcess keywords rest with
      | Except.error m => Except.error m
      | Except.ok ys => Except.ok (xs ++ ys)

/-! ## CVEAgent (`collection_agent.py` lines 108-193)

Every field access in `CVEAgent.process` is a defaulting `.get` (or is
guarded by an `in`/truthiness test), so the function is total; numeric
CVSS scores are carried as opaque strings, since the code never computes
with them. -/

/-- One entry of a CVE's `descriptions` list. -/
structure CveDescription where
  lang : Option String
  value : Option String
deriving DecidableEq

/-- The `cvssData` object of one CVSS metric. -/
structure CvssData where
  baseScore : Option String
  baseSeverity : Option String
deriving DecidableEq

/-- One element of a `cvssMetricV31`/`cvssMetricV30` list. -/
structure CvssMetric where
  cvssData : Option CvssData
deriving DecidableEq

/-- The `metrics` object of a CVE; `none` on a list field means the
version key is absent (`'cvssMetricV31' in metrics` is false). -/
structure CveMetrics where
  cvssMetricV31 : Option (List CvssMetric)
  cvssMetricV30 : Option (List CvssMetric)
deriving DecidableEq

/-- The `cve` object of one NVD record (`configurations` and
`weaknesses` are read into variables the code never uses afterwards, so
they are not modelled). -/
structure Cve where
  id : Option String
  descriptions : Option (List CveDescription)
  metrics : Option CveMetrics
deriving DecidableEq

/-- One element of the NVD `vulnerabilities` list. -/
structure CveItem where
  cve : Option Cve
deriving DecidableEq

/-- The fields of the serialized STIX Vulnerability that the code sets,
plus the two custom fields added after serialization.  An external
reference is `(source_name, external_id, url)`. -/
structure CveOut where
  type : String
  name : String
  description : String
  external_references : List (String × String × String)
  x_cvss_score : Option String
  x_severity : String
deriving DecidableEq

/-- `' '.join([d.get('value', '') for d in descriptions if d.get('lang') == 'en'])`. -/
def cveDescriptionText (c : Cve) : String :=
  String.intercalate " "
    (((c.descriptions.getD []).filter fun d => d.lang = some "en").map
      fun d => d.value.getD "")

/-- `f"{cve_id} {description_text}".lower()`. -/
def cveSearchText (c : Cve) : String :=
  pyLower (c.id.getD "" ++ " " ++ cveDescriptionText c)

/-- `any(keyword.lower() in search_text for keyword in self.dna_keywords)`. -/
def cveMatch (keywords : List String) (c : Cve) : Bool :=
  keywords.any fun kw => pyIn (pyLower kw) (cveSearchText c)

/-- The score/severity extraction: prefer `cvssMetricV31`, else
`cvssMetricV30`, else `(None, "UNKNOWN")`; an empty metric list gives the
same defaults as a missing `cvssData`. -/
def cveScoreSeverity (m : CveMetrics) : Option String × String :=
  match m.cvssMetricV31 with
  | some lst =>
    let cd := (lst.head?.getD ⟨none⟩).cvssData.getD ⟨none, none⟩
    (cd.baseScore, cd.baseSeverity.getD "UNKNOWN")
  | none =>
    match m.cvssMetricV30 with
    | some lst =>
      let cd := (lst.head?.getD ⟨none⟩).cvssData.getD ⟨none, none⟩
      (cd.baseScore, cd.baseSeverity.getD "UNKNOWN")
    | none => (none, "UNKNOWN")

/-- Python `s[:n]` (slice of the first `n` characters). -/
def pyTake (n : Nat) (s : String) : String :=
  ⟨s.data.take n⟩

/-- Build the output record for one matched CVE. -/
def cveConvert (c : Cve) : CveOut :=
  let cveId := c.id.getD ""
  let descriptionText := cveDescriptionText c
  let sc := cveScoreSeverity (c.metrics.getD ⟨none, none⟩)
  { type := "vulnerability"
    name := cveId
    description :=
      if descriptionText = "" then "No description available"
      else pyTake 500 descriptionText
    external_references :=
      [("NVD", cveId, "https://nvd.nist.gov/vuln/detail/" ++ cveId)]
    x_cvss_score := sc.1
    x_severity := sc.2 }

/-- `CVEAgent.process(raw_cves)`. -/
def cveProcess (keywords : List String) : List CveItem → List CveOut
  | [] => []
  | item :: rest =>
    let c := item.cve.getD ⟨none, none, none⟩
    (if cveMatch keywords c then [cveConvert c] else []) ++
      cveProcess keywords rest

/-! ## GitHubSecurityAgent (`collection_agent.py` lines 196-314)

As in `CVEAgent.process`, every access in the processing loop defaults
missing data, so the function is total.  A present-but-empty `package`
or `cvss` dict is falsy in Python exactly like a missing one; both are
modelled as `none`. -/

/-- The `package` object of one advisory vulnerability node. -/
structure GhPackage where
  ecosystem : Option String
  name : Option String
deriving DecidableEq

/-- One node of an advisory's `vulnerabilities.nodes` list. -/
structure GhVulnNode where
  package : Option GhPackage
deriving DecidableEq

/-- The `vulnerabilities` container object. -/
structure GhVulnContainer where
  nodes : Option (List GhVulnNode)
deriving DecidableEq

/-- The `cvss` object of an advisory. -/
structure GhCvss where
  score : Option String
deriving DecidableEq

/-- One raw GitHub security advisory node. -/
structure GhAdvisory where
  ghsaId : Option String
  summary : Option String
  description : Option String
  severity : Option String
  vulnerabilities : Option GhVulnContainer
  cvss : Option GhCvss
deriving DecidableEq

/-- The fields of the serialized advisory output the code sets. -/
structure GhOut where
  type : String
  name : String
  description : String
  external_references : List (String × String × String)
  x_cvss_score : Option String
  x_severity : String
  x_affected_packages : List String
deriving DecidableEq

/-- The `"{ecosystem}/{name}"` strings for every truthy `package`. -/
def ghAffectedPackages (a : GhAdvisory) : List String :=
  (((a.vulnerabilities.getD ⟨none⟩).nodes.getD []).filterMap fun v =>
    v.package.map fun pk => pk.ecosystem.getD "" ++ "/" ++ pk.name.getD "")

/-- `f"{ghsa_id} {summary} {description} {' '.join(affected_packages)}".lower()`. -/
def ghSearchText (a : GhAdvisory) : String :=
  pyLower
    (a.ghsaId.getD "" ++ " " ++ a.summary.getD "" ++ " " ++
      a.description.getD "" ++ " " ++
      String.intercalate " " (ghAffectedPackages a))

/-- `any(keyword.lower() in search_text for keyword in self.dna_keywords)`. -/
def ghMatch (keywords : List String) (a : GhAdvisory) : Bool :=
  keywords.any fun kw => pyIn (pyLower kw) (ghSearchText a)

/-- Build the output record for one matched advisory. -/
def ghConvert (a : GhAdvisory) : GhOut :=
  let ghsaId := a.ghsaId.getD ""
  let summary := a.summary.getD ""
  let description := a.description.getD ""
  { type := "vulnerability"
    name := ghsaId
    description :=
      summary ++ ". " ++ (if description = "" then "" else pyTake 400 description)
    external_references :=
      [("GitHub Advisory", ghsaId, "https://github.com/advisories/" ++ ghsaId)]
    x_cvss_score := (a.cvss.getD ⟨none⟩).score
    x_severity := a.severity.getD "UNKNOWN"
    x_affected_packages := ghAffectedPackages a }

/-- `GitHubSecurityAgent.process(raw_advisories)`. -/
def ghProcess (keywords : List String) : List GhAdvisory → List GhOut
  | [] => []
  | a :: rest =>
    (if ghMatch keywords a then [ghConvert a] else []) ++
      ghProcess keywords rest

/-! ## ThreatLandscapeBuilder (`collection_agent.py` lines 317-395) -/

/-- A Threat Item as the builder sees it: a dict from which the code
reads only `type`, `id` and `name` (each possibly absent); `payload`
stands for the rest of the dict, so that items that agree on the three
read keys can still differ. -/
structure Item where
  type : Option String
  id : Option String
  name : Option String
  payload : String
deriving DecidableEq

/-- `item.get('id') or item.get('name', '')`: Python `or` returns the
first truthy operand, a string being truthy when non-empty. -/
def identifier (i : Item) : String :=
  match i.id with
  | some s => if s = "" then i.name.getD "" else s
  | none => i.name.getD ""

/-- The dedup loop of `_deduplicate_items` with its `seen` set (only
membership is ever used, so a list models it).  An item is appended only
when `identifier and identifier not in seen`; all other items — both
repeats and items with a falsy identifier — are dropped. -/
def dedupGo (seen : List String) : List Item → List Item
  | [] => []
  | i :: rest =>
    if identifier i ≠ "" ∧ identifier i ∉ seen then
      i :: dedupGo (identifier i :: seen) rest
    else dedupGo seen rest

/-- `ThreatLandscapeBuilder._deduplicate_items`. -/
def deduplicateItems (items : List Item) : List Item :=
  dedupGo [] items

/-- The builder's working state: the values under the five keys of the
`threat_landscape` dict. -/
structure Landscape where
  indicators : List Item
  vulnerabilities : List Item
  timestamp : String
  sources : List String
  total_items : Nat
deriving DecidableEq

instance {ε α : Type} [DecidableEq ε] [DecidableEq α] :
    DecidableEq (Except ε α) := fun x y =>
  match x, y with
  | Except.error a, Except.error b =>
    if h : a = b then Decidable.isTrue (by rw [h])
    else Decidable.isFalse (by intro hh; cases hh; exact h rfl)
  | Except.ok a, Except.ok b =>
    if h : a = b then Decidable.isTrue (by rw [h])
    else Decidable.isFalse (by intro hh; cases hh; exact h rfl)
  | Except.error _, Except.ok _ => Decidable.isFalse (by intro hh; cases hh)
  | Except.ok _, Except.error _ => Decidable.isFalse (by intro hh; cases hh)

/-- A collection agent as the builder consumes it: a class name and the
outcome of `run()` — either a list of Threat Items or a raised
exception (`Except.error`). -/
structure Agent where
  name : String
  run : Except String (List Item)
deriving DecidableEq

/-- Route one item by its `type` tag: `indicator` and `vulnerability` go
to their buckets, anything else is appended to `indicators` (the code's
`if "indicators" not in threat_landscape` guard is dead, since the key
is always present in the initial dict literal). -/
def routeItem (st : Landscape) (i : Item) : Landscape :=
  let stixType := i.type.getD ""
  if stixType = "indicator" then
    { st with indicators := st.indicators ++ [i] }
  else if stixType = "vulnerability" then
    { st with vulnerabilities := st.vulnerabilities ++ [i] }
  else
    { st with indicators := st.indicators ++ [i] }

/-- One iteration of the agent loop: a raised exception is caught and
skipped; a falsy (empty) result contributes nothing; otherwise every
item is routed and the agent's class name is appended to `sources`. -/
def processAgent (st : Landscape) (a : Agent) : Landscape :=
  match a.run with
  | Except.error _ => st
  | Except.ok data =>
    if data.isEmpty then st
    else
      let st := data.foldl routeItem st
      { st with sources := st.sources ++ [a.name] }

/-- The initial `threat_landscape` dict literal. -/
def initLandscape (timestamp : String) : Landscape :=
  { indicators := []
    vulnerabilities := []
    timestamp := timestamp
    sources := []
    total_items := 0 }

/-- `ThreatLandscapeBuilder.build_threat_landscape`: loop over the
agents, then deduplicate both buckets, then recompute `total_items` from
the deduplicated buckets. -/
def buildThreatLandscape (timestamp : String) (agents : List Agent) :
    Landscape :=
  let st := agents.foldl processAgent (initLandscape timestamp)
  { st with
    indicators := deduplicateItems st.indicators
    vulnerabilities := deduplicateItems st.vulnerabilities
    total_items :=
      (deduplicateItems st.indicators).length +
        (deduplicateItems st.vulnerabilities).length }

/-- A value of the returned landscape dict. -/
inductive LVal where
  | items (l : List Item)
  | str (s : String)
  | strs (l : List String)
  | num (n : Nat)
deriving DecidableEq

/-- The returned landscape as the key-value mapping the Python function
actually hands back; no statement in the function ever adds or removes a
key of the initial literal. -/
def landscapeDict (st : Landscape) : List (String × LVal) :=
  [("indicators", LVal.items st.indicators),
   ("vulnerabilities", LVal.items st.vulnerabilities),
   ("timestamp", LVal.str st.timestamp),
   ("sources", LVal.strs st.sources),
   ("total_items", LVal.num st.total_items)]

/-- `build_threat_landscape` as the dict the caller receives. -/
def buildThreatLandscapeDict (timestamp : String) (agents : List Agent) :
    List (String × LVal) :=
  landscapeDict (buildThreatLandscape timestamp agents)

/-- `True` exactly when the builder appends the agent's name to
`sources`: `run()` returned normally with a truthy (non-empty) list. -/
def agentYields (a : Agent) : Bool :=
  match a.run with
  | Except.ok l => !l.isEmpty
  | Except.error _ => false

/-! ## Constructor signatures (`BaseAgent.__init__` and subclasses)

Python binds a keyword argument only to a declared parameter of the same
name (none of these `__init__` methods takes `**kwargs`); an unmatched
keyword argument raises `TypeError`.  The parameter lists below are the
declared non-`self` parameters of each constructor in the source. -/

/-- `BaseAgent.__init__(self)`. -/
def baseInitParams : List String := []

/-- `OTXAgent.__init__(self, api_key)`. -/
def otxInitParams : List String := ["api_key"]

/-- `CVEAgent.__init__(self, api_key=None)`. -/
def cveInitParams : List String := ["api_key"]

/-- `GitHubSecurityAgent.__init__(self, github_token=None)`. -/
def ghInitParams : List String := ["github_token"]

/-- A Python call with the given keyword-argument names succeeds (binds)
iff every name is a declared parameter. -/
def pyCallKwargsOk (params kwargs : List String) : Bool :=
  kwargs.all fun k => params.contains k

/-! ## Lemmas: ASCII lowering and stripping -/

theorem char_ofNat_toNat (n : Nat) (h : n.isValidChar) :
    (Char.ofNat n).toNat = n := by
  simp [Char.ofNat, dif_pos h, Char.ofNatAux, Char.toNat, UInt32.toNat,
    BitVec.toNat_ofNatLt]

theorem toLower_toNat_of_upper (c : Char)
    (h : 65 ≤ c.toNat ∧ c.toNat ≤ 90) :
    (Char.toLower c).toNat = c.toNat + 32 := by
  have hv : (c.toNat + 32).isValidChar := Or.inl (by omega)
  show ((if c.toNat ≥ 65 ∧ c.toNat ≤ 90 then Char.ofNat (c.toNat + 32)
      else c)).toNat = c.toNat + 32
  rw [if_pos ⟨h.1, h.2⟩]
  exact char_ofNat_toNat _ hv

theorem toLower_eq_self_of_not_upper (c : Char)
    (h : ¬(65 ≤ c.toNat ∧ c.toNat ≤ 90)) : Char.toLower c = c := by
  show (if c.toNat ≥ 65 ∧ c.toNat ≤ 90 then Char.ofNat (c.toNat + 32)
      else c) = c
  rw [if_neg]
  intro hc
  exact h ⟨hc.1, hc.2⟩

theorem toLower_idem (c : Char) :
    Char.toLower (Char.toLower c) = Char.toLower c := by
  by_cases h : 65 ≤ c.toNat ∧ c.toNat ≤ 90
  · have h2 := toLower_toNat_of_upper c h
    exact toLower_eq_self_of_not_upper _ (by omega)
  · rw [toLower_eq_self_of_not_upper c h]
    exact toLower_eq_self_of_not_upper c h

theorem isSpace_toLower (c : Char) :
    isSpace (Char.toLower c) = isSpace c := by
  by_cases h : 65 ≤ c.toNat ∧ c.toNat ≤ 90
  · have h2 := toLower_toNat_of_upper c h
    simp only [isSpace, h2]
    have : ¬(c.toNat = 32 ∨ c.toNat = 9 ∨ c.toNat = 10 ∨ c.toNat = 13 ∨
        c.toNat = 11 ∨ c.toNat = 12) := by omega
    have : (decide (c.toNat + 32 = 32) || decide (c.toNat + 32 = 9) ||
        decide (c.toNat + 32 = 10) || decide (c.toNat + 32 = 13) ||
        decide (c.toNat + 32 = 11) || decide (c.toNat + 32 = 12)) = false := by
      simp
      omega
    rw [this]
    have : (decide (c.toNat = 32) || decide (c.toNat = 9) ||
        decide (c.toNat = 10) || decide (c.toNat = 13) ||
        decide (c.toNat = 11) || decide (c.toNat = 12)) = false := by
      simp
      omega
    rw [this]
  · rw [toLower_eq_self_of_not_upper c h]

theorem map_toLower_idem (l : List Char) :
    (l.map Char.toLower).map Char.toLower = l.map Char.toLower := by
  induction l with
  | nil => rfl
  | cons c t ih => simp [toLower_idem, ih]

theorem dropWhile_map_toLower (l : List Char) :
    (l.map Char.toLower).dropWhile isSpace =
      (l.dropWhile isSpace).map Char.toLower := by
  induction l with
  | nil => rfl
  | cons c t ih =>
    simp only [List.map_cons, List.dropWhile_cons, isSpace_toLower]
    by_cases h : isSpace c = true
    · simp [h, ih]
    · simp [h]

theorem stripChars_map_toLower (l : List Char) :
    stripChars (l.map Char.toLower) = (stripChars l).map Char.toLower := by
  unfold stripChars
  rw [dropWhile_map_toLower, ← List.map_reverse, dropWhile_map_toLower,
    ← List.map_reverse]

theorem dropWhile_self_idem (p : Char → Bool) (l : List Char) :
    (l.dropWhile p).dropWhile p = l.dropWhile p := by
  induction l with
  | nil => rfl
  | cons c t ih =>
    by_cases h : p c = true
    · simp [List.dropWhile_cons, h, ih]
    · simp [List.dropWhile_cons, h]

theorem head?_dropWhile_false (p : Char → Bool) (l : List Char) (c : Char)
    (h : (l.dropWhile p).head? = some c) : p c = false := by
  induction l with
  | nil => simp [List.dropWhile] at h
  | cons a t ih =>
    rw [List.dropWhile_cons] at h
    by_cases ha : p a = true
    · rw [if_pos ha] at h
      exact ih h
    · rw [if_neg ha] at h
      simp at h
      subst h
      simpa using ha

theorem dropWhile_eq_self_of_head (p : Char → Bool) (l : List Char)
    (h : ∀ c, l.head? = some c → p c = false) : l.dropWhile p = l := by
  cases l with
  | nil => rfl
  | cons a t =>
    rw [List.dropWhile_cons, if_neg]
    simp [h a rfl]

theorem stripChars_idem (l : List Char) :
    stripChars (stripChars l) = stripChars l := by
  unfold stripChars
  set A := l.dropWhile isSpace with hA
  set B := A.reverse.dropWhile isSpace with hB
  have hBdrop : B.dropWhile isSpace = B := by
    rw [hB]
    exact dropWhile_self_idem _ _
  have hstep : B.reverse.dropWhile isSpace = B.reverse := by
    apply dropWhile_eq_self_of_head
    intro c hc
    rw [List.head?_reverse] at hc
    have hsuf : B <:+ A.reverse := by
      rw [hB]
      exact List.dropWhile_suffix _
    obtain ⟨t, ht⟩ := hsuf
    have hBne : B ≠ [] := by
      intro hnil
      rw [hnil] at hc
      simp at hc
    have hlast : A.reverse.getLast? = some c := by
      rw [← ht, List.getLast?_append, hc]
      rfl
    rw [List.getLast?_reverse] at hlast
    exact head?_dropWhile_false isSpace l c (hA ▸ hlast)
  rw [hstep, List.reverse_reverse, hBdrop]

theorem pyLower_pyLower (s : String) : pyLower (pyLower s) = pyLower s :=
  congrArg String.mk (map_toLower_idem s.data)

theorem pyStrip_pyLower_pyStrip (s : String) :
    pyStrip (pyLower (pyStrip s)) = pyLower (pyStrip s) := by
  show (⟨stripChars ((stripChars s.data).map Char.toLower)⟩ : String) = _
  rw [stripChars_map_toLower, stripChars_idem]
  rfl

/-! ## Lemmas: keyword-set derivation -/

theorem splitCommaChars_ne_nil (l : List Char) : splitCommaChars l ≠ [] := by
  cases l with
  | nil => simp [splitCommaChars]
  | cons c rest =>
    have ih := splitCommaChars_ne_nil rest
    simp only [splitCommaChars]
    cases h : splitCommaChars rest with
    | nil => exact absurd h ih
    | cons a t =>
      by_cases hc : c = ','
      · simp [hc]
      · simp [hc]

theorem pySplitComma_ne_nil (s : String) : pySplitComma s ≠ [] := by
  unfold pySplitComma
  simp [splitCommaChars_ne_nil]

theorem keywordSetOf_nonempty (s : String) : (keywordSetOf s).Nonempty := by
  unfold keywordSetOf
  rw [List.toFinset_nonempty_iff]
  simp [pySplitComma_ne_nil]

theorem keywordSetOf_mem (s kw : String) (h : kw ∈ keywordSetOf s) :
    pyLower kw = kw ∧ pyStrip kw = kw := by
  unfold keywordSetOf at h
  rw [List.mem_toFinset, List.mem_map] at h
  obtain ⟨x, _, rfl⟩ := h
  exact ⟨pyLower_pyLower _, pyStrip_pyLower_pyStrip x⟩

theorem fallback_mem_normalized (kw : String) (h : kw ∈ fallbackKeywords) :
    pyLower kw = kw ∧ pyStrip kw = kw := by
  fin_cases h <;> exact ⟨by decide, by decide⟩

/-! ## Lemmas: deduplication -/

theorem dedupGo_sublist (l : List Item) (seen : List String) :
    (dedupGo seen l).Sublist l := by
  induction l generalizing seen with
  | nil => simp [dedupGo]
  | cons i rest ih =>
    unfold dedupGo
    split
    · exact (ih _).cons₂ i
    · exact (ih _).cons i

theorem dedupGo_mem (l : List Item) (seen : List String) (i : Item)
    (h : i ∈ dedupGo seen l) :
    identifier i ≠ "" ∧ identifier i ∉ seen := by
  induction l generalizing seen with
  | nil => simp [dedupGo] at h
  | cons a rest ih =>
    unfold dedupGo at h
    split at h
    · rename_i hc
      rcases List.mem_cons.mp h with rfl | hmem
      · exact hc
      · have := ih _ hmem
        exact ⟨this.1, fun hs => this.2 (List.mem_cons_of_mem _ hs)⟩
    · exact ih _ h

theorem dedupGo_map_nodup (l : List Item) (seen : List String) :
    ((dedupGo seen l).map identifier).Nodup := by
  induction l generalizing seen with
  | nil => simp [dedupGo]
  | cons a rest ih =>
    unfold dedupGo
    split
    · rw [List.map_cons, List.nodup_cons]
      refine ⟨?_, ih _⟩
      intro hmem
      rw [List.mem_map] at hmem
      obtain ⟨b, hb, hbe⟩ := hmem
      have := (dedupGo_mem _ _ _ hb).2
      rw [hbe] at this
      exact this (List.mem_cons_self _ _)
    · exact ih _

theorem dedupGo_ident_mem (l : List Item) (seen : List String) (i : Item)
    (hi : i ∈ l) (h1 : identifier i ≠ "") (h2 : identifier i ∉ seen) :
    identifier i ∈ (dedupGo seen l).map identifier := by
  induction l generalizing seen with
  | nil => simp at hi
  | cons a rest ih =>
    unfold dedupGo
    rcases List.mem_cons.mp hi with rfl | hmem
    · rw [if_pos ⟨h1, h2⟩]
      simp
    · split
      · rename_i hc
        by_cases he : identifier i = identifier a
        · rw [List.map_cons, he]
          simp
        · rw [List.map_cons]
          refine List.mem_cons_of_mem _ (ih _ hmem ?_)
          simp only [List.mem_cons]
          tauto
      · exact ih _ hmem h2

theorem dedupGo_find (l : List Item) (seen : List String) (s : String)
    (hs : s ≠ "") (hseen : s ∉ seen) :
    (dedupGo seen l).find? (fun i => identifier i == s) =
      l.find? (fun i => identifier i == s) := by
  induction l generalizing seen with
  | nil => simp [dedupGo]
  | cons a rest ih =>
    unfold dedupGo
    by_cases he : identifier a = s
    · rw [if_pos ⟨he ▸ hs, he ▸ hseen⟩]
      rw [List.find?_cons, List.find?_cons]
      simp [he]
    · have hbeq : (identifier a == s) = false := by
        simp [he]
      rw [List.find?_cons, hbeq]
      split
      · rw [List.find?_cons, hbeq]
        exact ih _ (by simp only [List.mem_cons]; tauto)
      · exact ih _ hseen

theorem dedupGo_eq_self (l : List Item)
    (h1 : ∀ i ∈ l, identifier i ≠ "")
    (h2 : (l.map identifier).Nodup) (seen : List String)
    (h3 : ∀ i ∈ l, identifier i ∉ seen) : dedupGo seen l = l := by
  induction l generalizing seen with
  | nil => rfl
  | cons a rest ih =>
    unfold dedupGo
    rw [if_pos ⟨h1 a (List.mem_cons_self _ _), h3 a (List.mem_cons_self _ _)⟩]
    rw [List.map_cons, List.nodup_cons] at h2
    congr 1
    refine ih (fun i hi => h1 i (List.mem_cons_of_mem _ hi)) h2.2 _ ?_
    intro i hi
    simp only [List.mem_cons]
    rintro (hia | his)
    · exact h2.1 (hia ▸ List.mem_map_of_mem identifier hi)
    · exact h3 i (List.mem_cons_of_mem _ hi) his

theorem deduplicateItems_idem (l : List Item) :
    deduplicateItems (deduplicateItems l) = deduplicateItems l := by
  unfold deduplicateItems
  refine dedupGo_eq_self _ ?_ ?_ _ ?_
  · exact fun i hi => (dedupGo_mem _ _ _ hi).1
  · exact dedupGo_map_nodup _ _
  · simp

/-! ## Lemmas: the builder loop -/

theorem routeItem_sources (st : Landscape) (i : Item) :
    (routeItem st i).sources = st.sources := by
  unfold routeItem
  dsimp only
  split
  · rfl
  · split <;> rfl

theorem foldl_routeItem_sources (data : List Item) (st : Landscape) :
    (data.foldl routeItem st).sources = st.sources := by
  induction data generalizing st with
  | nil => rfl
  | cons i rest ih => rw [List.foldl_cons, ih, routeItem_sources]

theorem processAgent_sources (st : Landscape) (a : Agent) :
    (processAgent st a).sources =
      st.sources ++ (if agentYields a then [a.name] else []) := by
  unfold processAgent agentYields
  cases a.run with
  | error e => simp
  | ok data =>
    by_cases h : data.isEmpty
    · simp [h]
    · simp only [h, Bool.not_false, if_neg, Bool.false_eq_true,
        not_false_eq_true, if_true]
      simp [foldl_routeItem_sources, h]

theorem foldl_processAgent_sources (agents : List Agent) (st : Landscape) :
    (agents.foldl processAgent st).sources =
      st.sources ++ (agents.filter agentYields).map Agent.name := by
  induction agents generalizing st with
  | nil => simp
  | cons a rest ih =>
    rw [List.foldl_cons, ih, processAgent_sources]
    by_cases h : agentYields a
    · simp [List.filter_cons, h]
    · simp only [Bool.not_eq_true] at h
      simp [List.filter_cons, h]

theorem build_sources (ts : String) (agents : List Agent) :
    (buildThreatLandscape ts agents).sources =
      (agents.filter agentYields).map Agent.name := by
  unfold buildThreatLandscape
  simpa using foldl_processAgent_sources agents (initLandscape ts)

theorem processAgent_of_error (st : Landscape) (a : Agent) (e : String)
    (h : a.run = Except.error e) : processAgent st a = st := by
  unfold processAgent
  rw [h]

theorem build_drop_failed_agent (ts : String) (pre post : List Agent)
    (b : Agent) (e : String) (h : b.run = Except.error e) :
    buildThreatLandscape ts (pre ++ b :: post) =
      buildThreatLandscape ts (pre ++ post) := by
  unfold buildThreatLandscape
  rw [List.foldl_append, List.foldl_append, List.foldl_cons,
    processAgent_of_error _ b e h]

/-! ## Lemmas: agent `process` provenance -/

theorem otxPulseItems_ok_mem (p : Pulse) (entries : List OtxEntry)
    (out : List OtxOut) (h : otxPulseItems p entries = Except.ok out) :
    ∀ it ∈ out, it.name = p.name ∧ it.description = p.description := by
  induction entries generalizing out with
  | nil =>
    simp only [otxPulseItems] at h
    cases h
    simp
  | cons e rest ih =>
    simp only [otxPulseItems] at h
    cases he : otxEntryItem p e with
    | error m => rw [he] at h; cases h
    | ok it0 =>
      rw [he] at h
      cases hr : otxPulseItems p rest with
      | error m => rw [hr] at h; cases h
      | ok its =>
        rw [hr] at h
        cases h
        intro it hit
        rcases List.mem_cons.mp hit with rfl | hmem
        · cases ht : e.type with
          | none =>
            simp only [otxEntryItem, ht] at he
            exact Except.noConfusion he
          | some t =>
            cases hv : e.indicator with
            | none =>
              simp only [otxEntryItem, ht, hv] at he
              exact Except.noConfusion he
            | some v =>
              simp only [otxEntryItem, ht, hv] at he
              cases he
              exact ⟨rfl, rfl⟩
        · exact ih its hr it hmem

theorem otxProcess_ok_mem (keywords : List String) (pulses : List Pulse)
    (out : List OtxOut) (h : otxProcess keywords pulses = Except.ok out) :
    ∀ it ∈ out, ∃ p ∈ pulses, otxMatch keywords p = true ∧
      it.name = p.name ∧ it.description = p.description := by
  induction pulses generalizing out with
  | nil =>
    simp only [otxProcess] at h
    cases h
    simp
  | cons p rest ih =>
    simp only [otxProcess] at h
    cases hp : otxPulse keywords p with
    | error m => rw [hp] at h; cases h
    | ok xs =>
      rw [hp] at h
      cases hr : otxProcess keywords rest with
      | error m => rw [hr] at h; cases h
      | ok ys =>
        rw [hr] at h
        cases h
        intro it hit
        rcases List.mem_append.mp hit with hx | hy
        · unfold otxPulse at hp
          by_cases hm : otxMatch keywords p = true
          · rw [if_pos hm] at hp
            exact ⟨p, List.mem_cons_self _ _, hm,
              otxPulseItems_ok_mem p _ xs hp it hx⟩
          · rw [if_neg hm] at hp
            cases hp
            simp at hx
        · obtain ⟨q, hq, hrest⟩ := ih ys hr it hy
          exact ⟨q, List.mem_cons_of_mem _ hq, hrest⟩

theorem otxPulseItems_error_of_bad (p : Pulse) (entries : List OtxEntry)
    (h : ∃ e ∈ entries, e.type = none ∨ e.indicator = none) :
    ∃ m, otxPulseItems p entries = Except.error m := by
  induction entries with
  | nil => simp at h
  | cons e rest ih =>
    obtain ⟨e0, he0, hbad⟩ := h
    rcases List.mem_cons.mp he0 with rfl | hmem
    · rcases hbad with ht | hi
      · exact ⟨"KeyError: \x27type\x27", by
          simp only [otxPulseItems, otxEntryItem, ht]⟩
      · cases ht : e0.type with
        | none => exact ⟨"KeyError: \x27type\x27", by
            simp only [otxPulseItems, otxEntryItem, ht]⟩
        | some t => exact ⟨"KeyError: \x27indicator\x27", by
            simp only [otxPulseItems, otxEntryItem, ht, hi]⟩
    · obtain ⟨m, hm⟩ := ih ⟨e0, hmem, hbad⟩
      cases he : otxEntryItem p e with
      | error m0 => exact ⟨m0, by simp only [otxPulseItems, he]⟩
      | ok it => exact ⟨m, by simp only [otxPulseItems, he, hm]⟩

theorem otxProcess_error_of_bad (keywords : List String)
    (pulses : List Pulse)
    (h : ∃ p ∈ pulses, otxMatch keywords p = true ∧
      ∃ e ∈ p.indicators.getD [], e.type = none ∨ e.indicator = none) :
    ∃ m, otxProcess keywords pulses = Except.error m := by
  induction pulses with
  | nil => simp at h
  | cons p rest ih =>
    obtain ⟨p0, hp0, hm0, hbad⟩ := h
    rcases List.mem_cons.mp hp0 with rfl | hmem
    · obtain ⟨m, hm⟩ := otxPulseItems_error_of_bad p0 _ hbad
      refine ⟨m, ?_⟩
      simp only [otxProcess, otxPulse, if_pos hm0, hm]
    · cases hp : otxPulse keywords p with
      | error m0 => exact ⟨m0, by simp only [otxProcess, hp]⟩
      | ok xs =>
        obtain ⟨m, hm⟩ := ih ⟨p0, hmem, hm0, hbad⟩
        exact ⟨m, by simp only [otxProcess, hp, hm]⟩

theorem cveProcess_mem (keywords : List String) (items : List CveItem)
    (it : CveOut) (h : it ∈ cveProcess keywords items) :
    ∃ rec ∈ items, cveMatch keywords (rec.cve.getD ⟨none, none, none⟩) = true ∧
      it = cveConvert (rec.cve.getD ⟨none, none, none⟩) := by
  induction items with
  | nil => simp [cveProcess] at h
  | cons a rest ih =>
    simp only [cveProcess] at h
    rcases List.mem_append.mp h with hx | hy
    · by_cases hm : cveMatch keywords (a.cve.getD ⟨none, none, none⟩) = true
      · rw [if_pos hm] at hx
        simp at hx
        exact ⟨a, List.mem_cons_self _ _, hm, hx⟩
      · rw [if_neg hm] at hx
        simp at hx
    · obtain ⟨r, hr, hrest⟩ := ih hy
      exact ⟨r, List.mem_cons_of_mem _ hr, hrest⟩

theorem ghProcess_mem (keywords : List String) (advisories : List GhAdvisory)
    (it : GhOut) (h : it ∈ ghProcess keywords advisories) :
    ∃ a ∈ advisories, ghMatch keywords a = true ∧ it = ghConvert a := by
  induction advisories with
  | nil => simp [ghProcess] at h
  | cons a rest ih =>
    simp only [ghProcess] at h
    rcases List.mem_append.mp h with hx | hy
    · by_cases hm : ghMatch keywords a = true
      · rw [if_pos hm] at hx
        simp at hx
        exact ⟨a, List.mem_cons_self _ _, hm, hx⟩
      · rw [if_neg hm] at hx
        simp at hx
    · obtain ⟨r, hr, hrest⟩ := ih hy
      exact ⟨r, List.mem_cons_of_mem _ hr, hrest⟩

theorem cveProcess_append (keywords : List String) (xs ys : List CveItem) :
    cveProcess keywords (xs ++ ys) =
      cveProcess keywords xs ++ cveProcess keywords ys := by
  induction xs with
  | nil => rfl
  | cons a rest ih => simp [cveProcess, ih]

theorem ghProcess_append (keywords : List String) (xs ys : List GhAdvisory) :
    ghProcess keywords (xs ++ ys) =
      ghProcess keywords xs ++ ghProcess keywords ys := by
  induction xs with
  | nil => rfl
  | cons a rest ih => simp [ghProcess, ih]

/-! ## Claims -/

/-- C1: if any agent's `run()` raises, the builder logs and skips it
(the build of the whole list equals the build without that agent, so no
exception propagates and nothing of the failing agent is recorded); in
particular, with three agents of which only the second raises and the
other two return non-empty item lists, `sources` is exactly the first
and third agents' class names and the item buckets are those of the
two surviving agents alone. -/
theorem c1_failure_isolation (ts : String) (a₁ a₂ a₃ : Agent) (e : String)
    (l₁ l₃ : List Item)
    (h₁ : a₁.run = Except.ok l₁) (h₂ : a₂.run = Except.error e)
    (h₃ : a₃.run = Except.ok l₃) (hn₁ : l₁ ≠ []) (hn₃ : l₃ ≠ []) :
    (∀ (pre post : List Agent) (b : Agent) (e2 : String),
        b.run = Except.error e2 →
        buildThreatLandscape ts (pre ++ b :: post) =
          buildThreatLandscape ts (pre ++ post))
    ∧ buildThreatLandscape ts [a₁, a₂, a₃] =
        buildThreatLandscape ts [a₁, a₃]
    ∧ (buildThreatLandscape ts [a₁, a₂, a₃]).sources =
        [a₁.name, a₃.name] := by
  have e13 : buildThreatLandscape ts [a₁, a₂, a₃] =
      buildThreatLandscape ts [a₁, a₃] :=
    build_drop_failed_agent ts [a₁] [a₃] a₂ e h₂
  refine ⟨fun pre post b e2 hb =>
    build_drop_failed_agent ts pre post b e2 hb, e13, ?_⟩
  rw [e13, build_sources]
  have hy₁ : agentYields a₁ = true := by
    simp [agentYields, h₁, List.isEmpty_iff, hn₁]
  have hy₃ : agentYields a₃ = true := by
    simp [agentYields, h₃, List.isEmpty_iff, hn₃]
  simp [List.filter_cons, hy₁, hy₃]

theorem c1_failure_isolation_witness :
    buildThreatLandscape "t"
        [⟨"AgentOne", Except.ok [⟨some "indicator", some "i1", none, ""⟩]⟩,
         ⟨"AgentTwo", Except.error "boom"⟩,
         ⟨"AgentThree", Except.ok [⟨some "vulnerability", some "v1", none, ""⟩]⟩] =
      buildThreatLandscape "t"
        [⟨"AgentOne", Except.ok [⟨some "indicator", some "i1", none, ""⟩]⟩,
         ⟨"AgentThree", Except.ok [⟨some "vulnerability", some "v1", none, ""⟩]⟩]
    ∧ (buildThreatLandscape "t"
        [⟨"AgentOne", Except.ok [⟨some "indicator", some "i1", none, ""⟩]⟩,
         ⟨"AgentTwo", Except.error "boom"⟩,
         ⟨"AgentThree", Except.ok [⟨some "vulnerability", some "v1", none, ""⟩]⟩]).sources =
      ["AgentOne", "AgentThree"] :=
  (c1_failure_isolation "t"
    ⟨"AgentOne", Except.ok [⟨some "indicator", some "i1", none, ""⟩]⟩
    ⟨"AgentTwo", Except.error "boom"⟩
    ⟨"AgentThree", Except.ok [⟨some "vulnerability", some "v1", none, ""⟩]⟩
    "boom" [⟨some "indicator", some "i1", none, ""⟩]
    [⟨some "vulnerability", some "v1", none, ""⟩]
    rfl rfl rfl (by decide) (by decide)).2

/-- C2 counterexample: a keyword-matched pulse whose second indicator
entry lacks the `type` key makes `OTXAgent.process` raise `KeyError`
(the call returns an error, not a list), so the two well-formed sibling
entries yield nothing — the claim that a malformed record is skipped
while the rest are processed is false for this variant. -/
theorem c2_counterexample :
    otxProcess ["kubernetes"]
        [⟨some "Kubernetes cluster compromise", some "desc",
          some [⟨some "IPv4", some "1.2.3.4"⟩, ⟨none, some "5.6.7.8"⟩,
                ⟨some "domain", some "evil.example"⟩]⟩] =
      Except.error "KeyError: \x27type\x27" := by
  decide

/-- C2 amended: `CVEAgent.process` and `GitHubSecurityAgent.process`
treat records independently (processing a concatenation is the
concatenation of the processings, and no record can raise, every field
access defaulting), but `OTXAgent.process` raises as soon as any
keyword-matched pulse contains an indicator entry missing `type` or
`indicator`, losing the whole batch instead of skipping the record. -/
theorem c2_amended (keywords : List String) (pulses : List Pulse)
    (hbad : ∃ p ∈ pulses, otxMatch keywords p = true ∧
      ∃ e ∈ p.indicators.getD [], e.type = none ∨ e.indicator = none) :
    (∀ xs ys : List CveItem, cveProcess keywords (xs ++ ys) =
        cveProcess keywords xs ++ cveProcess keywords ys)
    ∧ (∀ xs ys : List GhAdvisory, ghProcess keywords (xs ++ ys) =
        ghProcess keywords xs ++ ghProcess keywords ys)
    ∧ ∃ m, otxProcess keywords pulses = Except.error m :=
  ⟨cveProcess_append keywords, ghProcess_append keywords,
    otxProcess_error_of_bad keywords pulses hbad⟩

theorem c2_amended_witness :
    ∃ m, otxProcess ["kubernetes"]
        [⟨some "Kubernetes breach", some "d",
          some [⟨some "IPv4", some "1.2.3.4"⟩, ⟨none, some "x"⟩]⟩] =
      Except.error m :=
  (c2_amended ["kubernetes"]
    [⟨some "Kubernetes breach", some "d",
      some [⟨some "IPv4", some "1.2.3.4"⟩, ⟨none, some "x"⟩]⟩]
    (by decide)).2.2

/-- C3 counterexample: an item with no `id` and no `name` is dropped by
`_deduplicate_items` (the loop appends only items with a truthy
identifier), not retained as the claim states. -/
theorem c3_counterexample :
    deduplicateItems [⟨some "vulnerability", none, none, "x"⟩] = [] := by
  decide

/-- C3 amended: `_deduplicate_items` keeps, in original order, only the
first occurrence of each truthy identifier (`id` when present and
non-empty, else `name`), and an item with neither an `id` nor a
non-empty `name` is removed from the output rather than kept: the
result is a sublist of the input, every surviving item has a truthy
identifier, identifiers in the result are pairwise distinct, no truthy
identifier of the input is lost, and for every truthy identifier the
first matching item of the result is the first matching item of the
input. -/
theorem c3_amended (items : List Item) :
    (deduplicateItems items).Sublist items
    ∧ (∀ i ∈ deduplicateItems items, identifier i ≠ "")
    ∧ ((deduplicateItems items).map identifier).Nodup
    ∧ (∀ i ∈ items, identifier i ≠ "" →
        identifier i ∈ (deduplicateItems items).map identifier)
    ∧ (∀ s : String, s ≠ "" →
        (deduplicateItems items).find? (fun i => identifier i == s) =
          items.find? (fun i => identifier i == s)) :=
  ⟨dedupGo_sublist _ _,
   fun i hi => (dedupGo_mem _ _ _ hi).1,
   dedupGo_map_nodup _ _,
   fun i hi h => dedupGo_ident_mem _ _ _ hi h (by simp),
   fun s hs => dedupGo_find _ _ s hs (by simp)⟩

theorem c3_amended_witness :
    (deduplicateItems
        [⟨some "vulnerability", some "a", none, "first"⟩,
         ⟨some "vulnerability", some "a", none, "second"⟩,
         ⟨none, none, none, "nameless"⟩]).find?
      (fun i => identifier i == "a") =
    ([⟨some "vulnerability", some "a", none, "first"⟩,
      ⟨some "vulnerability", some "a", none, "second"⟩,
      ⟨none, none, none, "nameless"⟩] : List Item).find?
      (fun i => identifier i == "a") :=
  (c3_amended
    [⟨some "vulnerability", some "a", none, "first"⟩,
     ⟨some "vulnerability", some "a", none, "second"⟩,
     ⟨none, none, none, "nameless"⟩]).2.2.2.2 "a" (by decide)

/-- C4: none of the agent constructors declares a `keywords` parameter
(`BaseAgent.__init__(self)`, `OTXAgent.__init__(self, api_key)`,
`CVEAgent.__init__(self, api_key=None)`,
`GitHubSecurityAgent.__init__(self, github_token=None)`), so the
`keywords=...` calls made by the pipeline and the HTTP endpoint cannot
bind and raise `TypeError` — the code contradicts its own callers and
the claim. -/
theorem c4_constructors_reject_keywords :
    pyCallKwargsOk otxInitParams ["api_key", "keywords"] = false
    ∧ pyCallKwargsOk cveInitParams ["api_key", "keywords"] = false
    ∧ pyCallKwargsOk ghInitParams ["github_token", "keywords"] = false
    ∧ baseInitParams = [] := by
  decide

/-- C5 counterexample: the scenario-B pulse yields three items whose
patterns embed each entry's native type verbatim — the third carries
`FileHash-SHA512` itself, not a generic fallback value-type — and an
embedded quote in a value is written into the pattern unescaped (one
quote, not doubled). -/
theorem c5_counterexample :
    otxProcess ["kubernetes"]
        [⟨some "Kubernetes cluster compromise", some "desc",
          some [⟨some "IPv4", some "1.2.3.4"⟩,
                ⟨some "domain", some "evil.example"⟩,
                ⟨some "FileHash-SHA512", some "deadbeef"⟩]⟩] =
      Except.ok
        [⟨"indicator", some "Kubernetes cluster compromise", "stix",
          "[IPv4:value = \x271.2.3.4\x27]", some "desc"⟩,
         ⟨"indicator", some "Kubernetes cluster compromise", "stix",
          "[domain:value = \x27evil.example\x27]", some "desc"⟩,
         ⟨"indicator", some "Kubernetes cluster compromise", "stix",
          "[FileHash-SHA512:value = \x27deadbeef\x27]", some "desc"⟩]
    ∧ otxProcess ["kubernetes"]
        [⟨some "Kubernetes attack", some "d",
          some [⟨some "IPv4", some "a\x27b"⟩]⟩] =
      Except.ok
        [⟨"indicator", some "Kubernetes attack", "stix",
          "[IPv4:value = \x27a\x27b\x27]", some "d"⟩] := by
  constructor <;> decide

/-- C5 amended: `OTXAgent.process` interpolates each entry's native
`type` string and raw `indicator` value directly into the pattern
f-string — there is no lookup table, no generic fallback tag and no
quote escaping: every well-formed entry of a matched pulse becomes an
item with pattern `[<type>:value = '<value>']` verbatim. -/
theorem c5_amended (p : Pulse) (e : OtxEntry) (t v : String)
    (ht : e.type = some t) (hv : e.indicator = some v) :
    otxEntryItem p e =
      Except.ok
        ⟨"indicator", p.name, "stix",
          "[" ++ t ++ ":value = \x27" ++ v ++ "\x27]", p.description⟩ := by
  simp [otxEntryItem, ht, hv]

theorem c5_amended_witness :
    otxEntryItem ⟨some "n", some "d", some []⟩
        ⟨some "FileHash-SHA512", some "h"⟩ =
      Except.ok
        ⟨"indicator", some "n", "stix",
          "[FileHash-SHA512:value = \x27h\x27]", some "d"⟩ :=
  c5_amended ⟨some "n", some "d", some []⟩ ⟨some "FileHash-SHA512", some "h"⟩
    "FileHash-SHA512" "h" rfl rfl

/-- C6: for each agent variant, every produced Threat Item comes from a
record whose synthesized search string matched some keyword by
case-insensitive substring containment (`otxMatch`/`cveMatch`/`ghMatch`
are exactly those containment tests), and a non-matching record
produces nothing; in particular scenario A returns exactly the one AWS
item. -/
theorem c6_keyword_filter_invariant :
    (∀ (keywords : List String) (pulses : List Pulse) (out : List OtxOut),
        otxProcess keywords pulses = Except.ok out →
        ∀ it ∈ out, ∃ p ∈ pulses, otxMatch keywords p = true ∧
          it.name = p.name ∧ it.description = p.description)
    ∧ (∀ (keywords : List String) (cves : List CveItem) (it : CveOut),
        it ∈ cveProcess keywords cves →
        ∃ rec ∈ cves,
          cveMatch keywords (rec.cve.getD ⟨none, none, none⟩) = true ∧
          it = cveConvert (rec.cve.getD ⟨none, none, none⟩))
    ∧ (∀ (keywords : List String) (advisories : List GhAdvisory) (it : GhOut),
        it ∈ ghProcess keywords advisories →
        ∃ a ∈ advisories, ghMatch keywords a = true ∧ it = ghConvert a)
    ∧ (cveProcess ["aws", "kubernetes"]
        [⟨some ⟨some "CVE-2024-1111",
          some [⟨some "en", some "A flaw in AWS Lambda."⟩], none⟩⟩,
         ⟨some ⟨some "CVE-2024-2222",
          some [⟨some "en", some "An issue in unrelated product X."⟩],
          none⟩⟩]).map CveOut.name = ["CVE-2024-1111"] :=
  ⟨otxProcess_ok_mem, cveProcess_mem, ghProcess_mem, by decide⟩

theorem c6_keyword_filter_invariant_witness :
    ∃ rec ∈ [(⟨some ⟨some "CVE-2024-1111",
        some [⟨some "en", some "A flaw in AWS Lambda."⟩], none⟩⟩ : CveItem)],
      cveMatch ["aws"] (rec.cve.getD ⟨none, none, none⟩) = true ∧
      cveConvert (⟨some "CVE-2024-1111",
          some [⟨some "en", some "A flaw in AWS Lambda."⟩], none⟩ : Cve) =
        cveConvert (rec.cve.getD ⟨none, none, none⟩) :=
  c6_keyword_filter_invariant.2.1 ["aws"]
    [⟨some ⟨some "CVE-2024-1111",
      some [⟨some "en", some "A flaw in AWS Lambda."⟩], none⟩⟩]
    (cveConvert ⟨some "CVE-2024-1111",
      some [⟨some "en", some "A flaw in AWS Lambda."⟩], none⟩)
    (by decide)

/-- C7: keyword derivation is total (the LLM and HTTP transport being
opaque total collaborators, the only failure the code handles —
`RequestException` — degrades to the fallback): empty or falsy input
yields exactly the fallback set, and for every input the result is a
non-empty set of strings each of which is a fixed point of lowering and
of stripping. -/
theorem c7_keyword_derivation :
    (∀ llm : String → String,
        extractKeywordsFromPirs llm "" = fallbackKeywords)
    ∧ (∀ (llm : String → String) (e : String),
        getKeywordsFromPirs llm (Except.error e) = fallbackKeywords)
    ∧ (∀ (llm : String → String) (resp : PirApiResponse),
        ((resp.pirs.getD ⟨none⟩).result).getD "" = "" →
        getKeywordsFromPirs llm (Except.ok resp) = fallbackKeywords)
    ∧ (∀ (llm : String → String) (t : String),
        (extractKeywordsFromPirs llm t).Nonempty)
    ∧ (∀ (llm : String → String) (f : Except String PirApiResponse),
        (getKeywordsFromPirs llm f).Nonempty)
    ∧ (∀ (llm : String → String) (t kw : String),
        kw ∈ extractKeywordsFromPirs llm t →
        pyLower kw = kw ∧ pyStrip kw = kw)
    ∧ (∀ (llm : String → String) (f : Except String PirApiResponse)
        (kw : String), kw ∈ getKeywordsFromPirs llm f →
        pyLower kw = kw ∧ pyStrip kw = kw) := by
  refine ⟨fun llm => rfl, fun llm e => rfl, ?_, ?_, ?_, ?_, ?_⟩
  · intro llm resp h
    show (if ((resp.pirs.getD ⟨none⟩).result).getD "" = "" then
        fallbackKeywords
      else keywordSetOf
        (llm (keywordPrompt (((resp.pirs.getD ⟨none⟩).result).getD "")))) =
      fallbackKeywords
    rw [if_pos h]
  · intro llm t
    unfold extractKeywordsFromPirs
    split
    · exact ⟨"threat", by decide⟩
    · exact keywordSetOf_nonempty _
  · intro llm f
    cases f with
    | error e =>
      show fallbackKeywords.Nonempty
      exact ⟨"threat", by decide⟩
    | ok resp =>
      show (if ((resp.pirs.getD ⟨none⟩).result).getD "" = "" then
          fallbackKeywords
        else keywordSetOf
          (llm (keywordPrompt
            (((resp.pirs.getD ⟨none⟩).result).getD "")))).Nonempty
      split
      · exact ⟨"threat", by decide⟩
      · exact keywordSetOf_nonempty _
  · intro llm t kw h
    unfold extractKeywordsFromPirs at h
    split at h
    · exact fallback_mem_normalized kw h
    · exact keywordSetOf_mem _ kw h
  · intro llm f kw h
    cases f with
    | error e =>
      have h2 : kw ∈ fallbackKeywords := h
      exact fallback_mem_normalized kw h2
    | ok resp =>
      have h2 : kw ∈ (if ((resp.pirs.getD ⟨none⟩).result).getD "" = "" then
          fallbackKeywords
        else keywordSetOf
          (llm (keywordPrompt
            (((resp.pirs.getD ⟨none⟩).result).getD "")))) := h
      by_cases hc : ((resp.pirs.getD ⟨none⟩).result).getD "" = ""
      · rw [if_pos hc] at h2
        exact fallback_mem_normalized kw h2
      · rw [if_neg hc] at h2
        exact keywordSetOf_mem _ kw h2

theorem c7_keyword_derivation_witness :
    pyLower "threat" = "threat" ∧ pyStrip "threat" = "threat" :=
  c7_keyword_derivation.2.2.2.2.2.1 (fun _ => "x") "" "threat" (by decide)

/-- C8: `total_items` is computed as the sum of the lengths of the two
buckets after deduplication: the final buckets are exactly the
deduplication of the collected buckets, they are fixed points of
deduplication, and `total_items` equals the sum of their lengths. -/
theorem c8_total_items (ts : String) (agents : List Agent) :
    (buildThreatLandscape ts agents).total_items =
      (buildThreatLandscape ts agents).indicators.length +
        (buildThreatLandscape ts agents).vulnerabilities.length
    ∧ (buildThreatLandscape ts agents).indicators =
        deduplicateItems
          ((agents.foldl processAgent (initLandscape ts)).indicators)
    ∧ (buildThreatLandscape ts agents).vulnerabilities =
        deduplicateItems
          ((agents.foldl processAgent (initLandscape ts)).vulnerabilities)
    ∧ deduplicateItems (buildThreatLandscape ts agents).indicators =
        (buildThreatLandscape ts agents).indicators
    ∧ deduplicateItems (buildThreatLandscape ts agents).vulnerabilities =
        (buildThreatLandscape ts agents).vulnerabilities :=
  ⟨rfl, rfl, rfl, deduplicateItems_idem _, deduplicateItems_idem _⟩

/-- C9 counterexample: the returned landscape dict never carries a
`keywords` key (checked on a concrete build), so it does not have
exactly the six claimed keys. -/
theorem c9_counterexample :
    "keywords" ∉ (buildThreatLandscapeDict "t" []).map Prod.fst
    ∧ (buildThreatLandscapeDict "t" []).map Prod.fst ≠
        ["indicators", "vulnerabilities", "timestamp", "sources",
         "total_items", "keywords"] := by
  decide

/-- C9 amended: for every run the returned mapping has exactly the five
keys `indicators`, `vulnerabilities`, `timestamp`, `sources`,
`total_items` — the builder stores `pir_keywords` on itself but never
adds a `keywords` key to the result. -/
theorem c9_amended (ts : String) (agents : List Agent) :
    (buildThreatLandscapeDict ts agents).map Prod.fst =
      ["indicators", "vulnerabilities", "timestamp", "sources",
       "total_items"] :=
  rfl

/-- C10: `sources` records exactly the agents whose `run()` returned a
truthy (non-empty) list — an agent that completes with an empty result
is not appended, just like a raising agent. -/
theorem c10_sources_are_yielding_agents (ts : String) (agents : List Agent) :
    (buildThreatLandscape ts agents).sources =
      (agents.filter agentYields).map Agent.name :=
  build_sources ts agents

end CAIber
